import Mathlib

/-!
Shallow embedding of the Background Tone Analyzer
(src/index.ts, function suggestBackground and its helpers),
together with theorems checking the specification claims.

Pixels are 8-bit channel values modelled as Nat; the floating-point
lightness arithmetic of the source is modelled over Real; the
edgeSampleRatio option (a JS number used only through Math.floor of a
product with a dimension) is modelled as Rat so that the band bounds
stay computable.
-/

namespace BgSuggest

/-- RGBA bitmap (ImageLike of the source): row-major grid of width*height
pixels, four bytes per pixel. Reads beyond the buffer yield 0. -/
structure Image where
  width : Nat
  height : Nat
  data : List Nat

/-- Recommendation tone, the string union 'light' | 'dark' of the source. -/
inductive Tone where
  | light : Tone
  | dark : Tone
deriving DecidableEq

/-- SuggestionOptions of the source. The source defaults are 16, true,
false, 0.4 (see BgSuggest.defaults). -/
structure SuggestionOptions where
  alphaThreshold : Nat
  ignorePureWhite : Bool
  ignorePureBlack : Bool
  edgeSampleRatio : Rat

/-- The option record produced by the destructuring defaults of the source. -/
def defaults : SuggestionOptions :=
  ⟨16, true, false, 0.4⟩

/-- BackgroundSuggestion record of the source. -/
structure BackgroundSuggestion where
  tone : Tone
  confidence : Real
  foregroundLightness : Real
  foregroundSampled : Nat
  totalSampled : Nat

/-- Channel read data[(y * width + x) * 4 + c], with c = 0,1,2,3 for
r,g,b,a; out-of-buffer reads give 0. -/
def chan (image : Image) (y x c : Nat) : Nat :=
  image.data.getD ((y * image.width + x) * 4 + c) 0

/-- Row-major enumeration of the pixel coordinates (y, x), matching the
nested for loops of the source. -/
def coords (w h : Nat) : List (Nat × Nat) :=
  (List.range h).flatMap (fun y => (List.range w).map (fun x => (y, x)))

/-- HSP perceived brightness of the source, scaled to the unit interval:
sqrt(0.299 r^2 + 0.587 g^2 + 0.114 b^2) / 255. -/
noncomputable def perceivedLightness (r g b : Nat) : Real :=
  Real.sqrt (0.299 * (r : Real) * r + 0.587 * (g : Real) * g + 0.114 * (b : Real) * b) / 255

/-- Lightness of the pixel at coordinate p = (y, x). -/
noncomputable def pixelLightness (image : Image) (p : Nat × Nat) : Real :=
  perceivedLightness (chan image p.1 p.2 0) (chan image p.1 p.2 1) (chan image p.1 p.2 2)

/-- Pass-1 filter of the source: alpha at least alphaThreshold, not
excluded as exact pure white, not excluded as exact pure black. -/
def fgPixelP (image : Image) (o : SuggestionOptions) (y x : Nat) : Prop :=
  o.alphaThreshold ≤ chan image y x 3 ∧
  ¬(o.ignorePureWhite = true ∧ chan image y x 0 = 255 ∧ chan image y x 1 = 255 ∧
      chan image y x 2 = 255) ∧
  ¬(o.ignorePureBlack = true ∧ chan image y x 0 = 0 ∧ chan image y x 1 = 0 ∧
      chan image y x 2 = 0)

instance instDecFgPixelP (image : Image) (o : SuggestionOptions) (y x : Nat) :
    Decidable (fgPixelP image o y x) :=
  inferInstanceAs (Decidable (_ ∧ _ ∧ _))

/-- Coordinates counted as foreground in pass 1, in scan order. -/
def fgList (image : Image) (o : SuggestionOptions) : List (Nat × Nat) :=
  (coords image.width image.height).filter (fun p => decide (fgPixelP image o p.1 p.2))

/-- Loop counter fgCount of the source. -/
def fgCount (image : Image) (o : SuggestionOptions) : Nat :=
  (fgList image o).length

/-- Loop accumulator accumLightness of the source. -/
noncomputable def accumLightness (image : Image) (o : SuggestionOptions) : Real :=
  ((fgList image o).map (fun p => pixelLightness image p)).sum

/-- Mean foreground lightness avgLightness of the source. -/
noncomputable def avgLightness (image : Image) (o : SuggestionOptions) : Real :=
  accumLightness image o / (fgCount image o : Real)

/-- Band bound edgeBandX = Math.floor(width * edgeSampleRatio). -/
def edgeBandX (image : Image) (o : SuggestionOptions) : Int :=
  Int.floor ((image.width : Rat) * o.edgeSampleRatio)

/-- Band bound edgeBandY = Math.floor(height * edgeSampleRatio). -/
def edgeBandY (image : Image) (o : SuggestionOptions) : Int :=
  Int.floor ((image.height : Rat) * o.edgeSampleRatio)

/-- Membership in the edge band: the union of the outer row band and the
outer column band (inYBand || inXBand in the source). -/
def inEdgeBandP (image : Image) (o : SuggestionOptions) (y x : Nat) : Prop :=
  ((y : Int) < edgeBandY image o ∨ (image.height : Int) - edgeBandY image o ≤ (y : Int)) ∨
  ((x : Int) < edgeBandX image o ∨ (image.width : Int) - edgeBandX image o ≤ (x : Int))

instance instDecInEdgeBandP (image : Image) (o : SuggestionOptions) (y x : Nat) :
    Decidable (inEdgeBandP image o y x) :=
  inferInstanceAs (Decidable ((_ ∨ _) ∨ (_ ∨ _)))

/-- Pass-2 filter of the source: edge-band membership and the alpha
threshold, with no pure-white or pure-black exclusion. -/
def edgePixelP (image : Image) (o : SuggestionOptions) (y x : Nat) : Prop :=
  inEdgeBandP image o y x ∧ o.alphaThreshold ≤ chan image y x 3

instance instDecEdgePixelP (image : Image) (o : SuggestionOptions) (y x : Nat) :
    Decidable (edgePixelP image o y x) :=
  inferInstanceAs (Decidable (_ ∧ _))

/-- Coordinates counted in pass 2, in scan order. -/
def edgeList (image : Image) (o : SuggestionOptions) : List (Nat × Nat) :=
  (coords image.width image.height).filter (fun p => decide (edgePixelP image o p.1 p.2))

/-- Loop counter of pass 2 (the count of edge-band pixels passing the
alpha threshold). -/
def edgeFgCount (image : Image) (o : SuggestionOptions) : Nat :=
  (edgeList image o).length

/-- Loop accumulator edgeLightAccum of the source. -/
noncomputable def edgeLightAccum (image : Image) (o : SuggestionOptions) : Real :=
  ((edgeList image o).map (fun p => pixelLightness image p)).sum

/-- Mean edge lightness edgeAvg of the source. -/
noncomputable def edgeAvg (image : Image) (o : SuggestionOptions) : Real :=
  edgeLightAccum image o / (edgeFgCount image o : Real)

/-- Tone and raw (pre-clamp) confidence chosen by the branch cascade of
the source in the non-empty-foreground case. -/
noncomputable def decision (image : Image) (o : SuggestionOptions) : Tone × Real :=
  if 0.58 < avgLightness image o then
    (Tone.dark, (avgLightness image o - 0.58) / 0.42)
  else if avgLightness image o < 0.42 then
    (Tone.light, (0.42 - avgLightness image o) / 0.42)
  else if 0 < edgeFgCount image o then
    (if avgLightness image o < edgeAvg image o then Tone.light else Tone.dark, 0.3)
  else
    (Tone.dark, 0.1)

/-- The analyzer suggestBackground of the source. -/
noncomputable def suggestBackground (image : Image) (o : SuggestionOptions) :
    BackgroundSuggestion :=
  if fgCount image o = 0 then
    ⟨Tone.dark, 0, 0, 0, image.width * image.height⟩
  else
    ⟨(decision image o).1, max 0 (min 1 (decision image o).2),
      avgLightness image o, fgCount image o, image.width * image.height⟩

/-- Well-formed bitmap: buffer long enough for the grid and every byte
an 8-bit value. -/
def Image.WellFormed (image : Image) : Prop :=
  4 * (image.width * image.height) ≤ image.data.length ∧ ∀ v ∈ image.data, v ≤ 255

instance instDecWellFormed (image : Image) : Decidable image.WellFormed :=
  inferInstanceAs (Decidable (_ ∧ _))

/-! ### Basic lemmas about the pixel enumeration and lightness -/

lemma mem_coords {w h : Nat} {p : Nat × Nat} : p ∈ coords w h ↔ p.1 < h ∧ p.2 < w := by
  cases p with
  | mk y x =>
    simp only [coords, List.mem_flatMap, List.mem_map, List.mem_range, Prod.mk.injEq]
    constructor
    · rintro ⟨a, ha, b, hb, hay, hbx⟩
      exact ⟨hay ▸ ha, hbx ▸ hb⟩
    · rintro ⟨hy, hx⟩
      exact ⟨y, hy, x, hx, rfl, rfl⟩

lemma coords_nodup (w h : Nat) : (coords w h).Nodup := by
  unfold coords
  rw [List.nodup_flatMap]
  constructor
  · intro y _
    exact (List.nodup_range w).map (fun a b hab => congrArg Prod.snd hab)
  · have hne : List.Pairwise (fun a b => a ≠ b) (List.range h) := List.nodup_range h
    refine hne.imp ?_
    intro a b hab p hpa hpb
    simp only [Function.onFun, List.mem_map, List.mem_range] at hpa hpb
    obtain ⟨xa, _, rfl⟩ := hpa
    obtain ⟨xb, _, h2⟩ := hpb
    exact hab (congrArg Prod.fst h2).symm

lemma perceivedLightness_gray (c : Nat) : perceivedLightness c c c = (c : Real) / 255 := by
  unfold perceivedLightness
  have h : 0.299 * (c : Real) * c + 0.587 * (c : Real) * c + 0.114 * (c : Real) * c
      = (c : Real) ^ 2 := by ring
  rw [h, Real.sqrt_sq (by positivity)]

lemma perceivedLightness_nonneg (r g b : Nat) : 0 ≤ perceivedLightness r g b := by
  unfold perceivedLightness
  have := Real.sqrt_nonneg (0.299 * (r : Real) * r + 0.587 * (g : Real) * g + 0.114 * (b : Real) * b)
  positivity

lemma perceivedLightness_le_one {r g b : Nat} (hr : r ≤ 255) (hg : g ≤ 255) (hb : b ≤ 255) :
    perceivedLightness r g b ≤ 1 := by
  unfold perceivedLightness
  rw [div_le_one (by norm_num)]
  have hr2 : (r : Real) ≤ 255 := by exact_mod_cast hr
  have hg2 : (g : Real) ≤ 255 := by exact_mod_cast hg
  have hb2 : (b : Real) ≤ 255 := by exact_mod_cast hb
  have hr0 : (0 : Real) ≤ r := Nat.cast_nonneg r
  have hg0 : (0 : Real) ≤ g := Nat.cast_nonneg g
  have hb0 : (0 : Real) ≤ b := Nat.cast_nonneg b
  have hin : 0.299 * (r : Real) * r + 0.587 * (g : Real) * g + 0.114 * (b : Real) * b
      ≤ (255 : Real) ^ 2 := by nlinarith
  calc Real.sqrt (0.299 * (r : Real) * r + 0.587 * (g : Real) * g + 0.114 * (b : Real) * b)
      ≤ Real.sqrt ((255 : Real) ^ 2) := Real.sqrt_le_sqrt hin
    _ = 255 := Real.sqrt_sq (by norm_num)

lemma getD_le_of_all {l : List Nat} (h : ∀ v ∈ l, v ≤ 255) (i : Nat) : l.getD i 0 ≤ 255 := by
  induction l generalizing i with
  | nil => simp [List.getD]
  | cons a t ih =>
    cases i with
    | zero => simpa using h a (by simp)
    | succ m =>
      simpa using ih (fun v hv => h v (List.mem_cons_of_mem a hv)) m

lemma chan_le_of_wellFormed {image : Image} (hwf : image.WellFormed) (y x c : Nat) :
    chan image y x c ≤ 255 :=
  getD_le_of_all hwf.2 ((y * image.width + x) * 4 + c)

lemma pixelLightness_nonneg (image : Image) (p : Nat × Nat) : 0 ≤ pixelLightness image p :=
  perceivedLightness_nonneg _ _ _

lemma pixelLightness_le_one {image : Image} (hwf : image.WellFormed) (p : Nat × Nat) :
    pixelLightness image p ≤ 1 :=
  perceivedLightness_le_one (chan_le_of_wellFormed hwf p.1 p.2 0)
    (chan_le_of_wellFormed hwf p.1 p.2 1) (chan_le_of_wellFormed hwf p.1 p.2 2)

lemma accumLightness_nonneg (image : Image) (o : SuggestionOptions) :
    0 ≤ accumLightness image o := by
  apply List.sum_nonneg
  intro x hx
  obtain ⟨p, -, rfl⟩ := List.mem_map.1 hx
  exact pixelLightness_nonneg image p

lemma accumLightness_le_count {image : Image} (hwf : image.WellFormed)
    (o : SuggestionOptions) : accumLightness image o ≤ (fgCount image o : Real) := by
  have h := List.sum_le_card_nsmul ((fgList image o).map (fun p => pixelLightness image p)) 1 ?_
  · simpa [fgCount, nsmul_eq_mul] using h
  · intro x hx
    obtain ⟨p, -, rfl⟩ := List.mem_map.1 hx
    exact pixelLightness_le_one hwf p

lemma avgLightness_nonneg (image : Image) (o : SuggestionOptions) :
    0 ≤ avgLightness image o :=
  div_nonneg (accumLightness_nonneg image o) (Nat.cast_nonneg _)

lemma avgLightness_le_one {image : Image} (hwf : image.WellFormed)
    (o : SuggestionOptions) : avgLightness image o ≤ 1 := by
  unfold avgLightness
  rcases Nat.eq_zero_or_pos (fgCount image o) with h | h
  · simp [h]
  · rw [div_le_one (by exact_mod_cast h)]
    simpa using accumLightness_le_count hwf o

/-! ### Branch lemmas for suggestBackground -/

lemma suggestBackground_of_fgCount_zero {image : Image} {o : SuggestionOptions}
    (h : fgCount image o = 0) :
    suggestBackground image o = ⟨Tone.dark, 0, 0, 0, image.width * image.height⟩ := by
  unfold suggestBackground
  rw [if_pos h]

lemma suggestBackground_of_fgCount_pos {image : Image} {o : SuggestionOptions}
    (h : fgCount image o ≠ 0) :
    suggestBackground image o =
      ⟨(decision image o).1, max 0 (min 1 (decision image o).2), avgLightness image o,
        fgCount image o, image.width * image.height⟩ := by
  unfold suggestBackground
  rw [if_neg h]

lemma suggestBackground_eq_of_decision {image : Image} {o : SuggestionOptions}
    {t : Tone} {c : Real} (h : fgCount image o ≠ 0) (hdec : decision image o = (t, c))
    (h0 : 0 ≤ c) (h1 : c ≤ 1) :
    suggestBackground image o =
      ⟨t, c, avgLightness image o, fgCount image o, image.width * image.height⟩ := by
  rw [suggestBackground_of_fgCount_pos h, hdec]
  dsimp only
  rw [min_eq_right h1, max_eq_right h0]

/-! ### Claim C1 -/

/-- C1: on a bitmap with at least one qualifying foreground pixel, every
foreground pixel's perceived lightness sqrt(0.299 R^2 + 0.587 G^2 +
0.114 B^2)/255 lies in [0,1], the reported foregroundLightness is the
mean avg of those values, and the clear cases decide as specified:
avg > 0.58 yields tone dark with confidence (avg - 0.58)/0.42, and
avg < 0.42 yields tone light with confidence (0.42 - avg)/0.42. -/
theorem suggestBackground_clear_cases (image : Image) (o : SuggestionOptions)
    (hwf : image.WellFormed) (h : fgCount image o ≠ 0) :
    (∀ p ∈ fgList image o, 0 ≤ pixelLightness image p ∧ pixelLightness image p ≤ 1) ∧
    (suggestBackground image o).foregroundLightness =
      ((fgList image o).map (fun p => pixelLightness image p)).sum / (fgCount image o : Real) ∧
    (0.58 < avgLightness image o →
      suggestBackground image o =
        ⟨Tone.dark, (avgLightness image o - 0.58) / 0.42, avgLightness image o,
          fgCount image o, image.width * image.height⟩) ∧
    (avgLightness image o < 0.42 →
      suggestBackground image o =
        ⟨Tone.light, (0.42 - avgLightness image o) / 0.42, avgLightness image o,
          fgCount image o, image.width * image.height⟩) := by
  refine ⟨?_, ?_, ?_, ?_⟩
  · intro p _
    exact ⟨pixelLightness_nonneg image p, pixelLightness_le_one hwf p⟩
  · rw [suggestBackground_of_fgCount_pos h]
    rfl
  · intro h58
    have hdec : decision image o = (Tone.dark, (avgLightness image o - 0.58) / 0.42) := by
      unfold decision
      rw [if_pos h58]
    refine suggestBackground_eq_of_decision h hdec (div_nonneg (by linarith) (by norm_num)) ?_
    rw [div_le_one (by norm_num)]
    have := avgLightness_le_one hwf o
    linarith
  · intro h42
    have h58 : ¬(0.58 < avgLightness image o) := by linarith
    have hdec : decision image o = (Tone.light, (0.42 - avgLightness image o) / 0.42) := by
      unfold decision
      rw [if_neg h58, if_pos h42]
    refine suggestBackground_eq_of_decision h hdec (div_nonneg (by linarith) (by norm_num)) ?_
    rw [div_le_one (by norm_num)]
    have := avgLightness_nonneg image o
    linarith

/-- Concrete 1 x 1 light-gray opaque bitmap used as a witness input. -/
def imgLight : Image := ⟨1, 1, [200, 200, 200, 255]⟩

lemma imgLight_fgList : fgList imgLight defaults = [(0, 0)] := by decide

lemma imgLight_avg : avgLightness imgLight defaults = 200 / 255 := by
  have hacc : accumLightness imgLight defaults = 200 / 255 := by
    rw [accumLightness, imgLight_fgList]
    simp only [List.map_cons, List.map_nil, List.sum_cons, List.sum_nil, add_zero]
    show perceivedLightness (chan imgLight 0 0 0) (chan imgLight 0 0 1) (chan imgLight 0 0 2)
        = 200 / 255
    rw [show chan imgLight 0 0 0 = 200 from rfl, show chan imgLight 0 0 1 = 200 from rfl,
      show chan imgLight 0 0 2 = 200 from rfl, perceivedLightness_gray]
    norm_num
  have hcnt : fgCount imgLight defaults = 1 := by decide
  rw [avgLightness, hacc, hcnt]
  norm_num

/-- Witness for C1: the 1 x 1 light-gray bitmap has mean lightness
200/255 > 0.58 and is sent to a dark background with the linear
confidence. -/
theorem suggestBackground_clear_cases_witness :
    0.58 < avgLightness imgLight defaults ∧
    suggestBackground imgLight defaults =
      ⟨Tone.dark, (avgLightness imgLight defaults - 0.58) / 0.42, avgLightness imgLight defaults,
        fgCount imgLight defaults, imgLight.width * imgLight.height⟩ := by
  have h58 : (0.58 : Real) < avgLightness imgLight defaults := by
    rw [imgLight_avg]
    norm_num
  exact ⟨h58,
    (suggestBackground_clear_cases imgLight defaults (by decide) (by decide)).2.2.1 h58⟩

/-! ### Claim C3 -/

/-- C3: when every pixel of the grid is rejected (alpha below the
threshold, or excluded by the exact pure-white or pure-black matches),
suggestBackground returns exactly tone dark, confidence 0,
foregroundLightness 0, foregroundSampled 0 and totalSampled
width * height. -/
theorem suggestBackground_empty_foreground (image : Image) (o : SuggestionOptions)
    (h : ∀ y x, y < image.height → x < image.width →
      chan image y x 3 < o.alphaThreshold ∨
      (o.ignorePureWhite = true ∧ chan image y x 0 = 255 ∧ chan image y x 1 = 255 ∧
        chan image y x 2 = 255) ∨
      (o.ignorePureBlack = true ∧ chan image y x 0 = 0 ∧ chan image y x 1 = 0 ∧
        chan image y x 2 = 0)) :
    suggestBackground image o = ⟨Tone.dark, 0, 0, 0, image.width * image.height⟩ := by
  apply suggestBackground_of_fgCount_zero
  have hnil : fgList image o = [] := by
    rw [fgList, List.filter_eq_nil_iff]
    intro p hp
    rw [mem_coords] at hp
    simp only [decide_eq_true_eq]
    intro hfg
    rcases h p.1 p.2 hp.1 hp.2 with ha | hw | hb
    · exact absurd hfg.1 (by omega)
    · exact hfg.2.1 hw
    · exact hfg.2.2 hb
  rw [fgCount, hnil]
  rfl

/-- Concrete 1 x 1 fully transparent bitmap used as a witness input. -/
def imgClear : Image := ⟨1, 1, [0, 0, 0, 0]⟩

/-- Witness for C3: the fully transparent 1 x 1 bitmap takes the
empty-foreground fallback. -/
theorem suggestBackground_empty_foreground_witness :
    suggestBackground imgClear defaults = ⟨Tone.dark, 0, 0, 0, 1⟩ := by
  refine suggestBackground_empty_foreground imgClear defaults ?_
  intro y x hy hx
  have hy0 : y = 0 := Nat.lt_one_iff.mp hy
  have hx0 : x = 0 := Nat.lt_one_iff.mp hx
  subst hy0
  subst hx0
  left
  decide

/-! ### Claim C4 -/

/-- C4: for every bitmap and every option record (well-formed or not,
pathological thresholds included) suggestBackground is a total function
and the confidence it returns lies in [0,1]. -/
theorem suggestBackground_confidence_bounds (image : Image) (o : SuggestionOptions) :
    0 ≤ (suggestBackground image o).confidence ∧ (suggestBackground image o).confidence ≤ 1 := by
  by_cases hc : fgCount image o = 0
  · rw [suggestBackground_of_fgCount_zero hc]
    dsimp only
    norm_num
  · rw [suggestBackground_of_fgCount_pos hc]
    dsimp only
    exact ⟨le_max_left 0 _, max_le (by norm_num) (min_le_left 1 _)⟩

/-! ### Claim C10 -/

lemma decision_snd_pos (image : Image) (o : SuggestionOptions) : 0 < (decision image o).2 := by
  unfold decision
  split
  · next h58 =>
    dsimp only
    exact div_pos (by linarith) (by norm_num)
  · split
    · next h42 =>
      dsimp only
      exact div_pos (by linarith) (by norm_num)
    · split
      · split
        · norm_num
        · norm_num
      · norm_num

/-- C10: the returned confidence is 0 exactly when no pixel qualified as
foreground; every non-empty-foreground branch produces a strictly
positive confidence. -/
theorem confidence_zero_iff_empty_foreground (image : Image) (o : SuggestionOptions) :
    (suggestBackground image o).confidence = 0 ↔
      (suggestBackground image o).foregroundSampled = 0 := by
  by_cases hc : fgCount image o = 0
  · rw [suggestBackground_of_fgCount_zero hc]
    simp
  · rw [suggestBackground_of_fgCount_pos hc]
    dsimp only
    have hpos : 0 < max 0 (min 1 (decision image o).2) :=
      lt_max_iff.mpr (Or.inr (lt_min (by norm_num) (decision_snd_pos image o)))
    constructor
    · intro h0
      exact absurd h0 (ne_of_gt hpos)
    · intro h0
      exact absurd h0 hc

/-! ### Claim C2 -/

/-- C2: in the ambiguous band 0.42 <= avg <= 0.58 the edge tiebreak runs
over the union of the outer floor(height * edgeSampleRatio) rows and the
outer floor(width * edgeSampleRatio) columns, filtered by the alpha
threshold only (no pure-white or pure-black exclusion); with no
qualifying edge pixel the result is tone dark with confidence 0.1,
otherwise tone light when edgeAvg > avg and tone dark when
edgeAvg <= avg, with confidence 0.3 in both cases. -/
theorem suggestBackground_ambiguous (image : Image) (o : SuggestionOptions)
    (h : fgCount image o ≠ 0)
    (h1 : 0.42 ≤ avgLightness image o) (h2 : avgLightness image o ≤ 0.58) :
    (∀ p : Nat × Nat, p ∈ edgeList image o ↔
      p.1 < image.height ∧ p.2 < image.width ∧
      ((p.1 : Int) < edgeBandY image o ∨ (image.height : Int) - edgeBandY image o ≤ (p.1 : Int) ∨
        (p.2 : Int) < edgeBandX image o ∨ (image.width : Int) - edgeBandX image o ≤ (p.2 : Int)) ∧
      o.alphaThreshold ≤ chan image p.1 p.2 3) ∧
    (edgeFgCount image o = 0 →
      suggestBackground image o =
        ⟨Tone.dark, 0.1, avgLightness image o, fgCount image o, image.width * image.height⟩) ∧
    (edgeFgCount image o ≠ 0 → avgLightness image o < edgeAvg image o →
      suggestBackground image o =
        ⟨Tone.light, 0.3, avgLightness image o, fgCount image o, image.width * image.height⟩) ∧
    (edgeFgCount image o ≠ 0 → edgeAvg image o ≤ avgLightness image o →
      suggestBackground image o =
        ⟨Tone.dark, 0.3, avgLightness image o, fgCount image o, image.width * image.height⟩) := by
  have hn58 : ¬(0.58 < avgLightness image o) := not_lt.mpr h2
  have hn42 : ¬(avgLightness image o < 0.42) := not_lt.mpr h1
  refine ⟨?_, ?_, ?_, ?_⟩
  · intro p
    rw [edgeList, List.mem_filter, mem_coords]
    simp only [decide_eq_true_eq, edgePixelP, inEdgeBandP]
    tauto
  · intro he
    have hdec : decision image o = (Tone.dark, 0.1) := by
      unfold decision
      rw [if_neg hn58, if_neg hn42, if_neg (by omega)]
    exact suggestBackground_eq_of_decision h hdec (by norm_num) (by norm_num)
  · intro he hlt
    have hdec : decision image o = (Tone.light, 0.3) := by
      unfold decision
      rw [if_neg hn58, if_neg hn42, if_pos (Nat.pos_of_ne_zero he), if_pos hlt]
    exact suggestBackground_eq_of_decision h hdec (by norm_num) (by norm_num)
  · intro he hge
    have hdec : decision image o = (Tone.dark, 0.3) := by
      unfold decision
      rw [if_neg hn58, if_neg hn42, if_pos (Nat.pos_of_ne_zero he), if_neg (not_lt.mpr hge)]
    exact suggestBackground_eq_of_decision h hdec (by norm_num) (by norm_num)

/-- Concrete 2 x 1 bitmap: one pure-white opaque pixel (excluded from the
foreground, counted by the edge pass) next to one mid-gray opaque pixel. -/
def imgMid : Image := ⟨2, 1, [255, 255, 255, 255, 128, 128, 128, 255]⟩

/-- Options with edgeSampleRatio 1/2 so the band covers both pixels. -/
def optsMid : SuggestionOptions := ⟨16, true, false, 1/2⟩

lemma imgMid_fgList : fgList imgMid optsMid = [(0, 1)] := by decide

lemma imgMid_avg : avgLightness imgMid optsMid = 128 / 255 := by
  have hacc : accumLightness imgMid optsMid = 128 / 255 := by
    rw [accumLightness, imgMid_fgList]
    simp only [List.map_cons, List.map_nil, List.sum_cons, List.sum_nil, add_zero]
    show perceivedLightness (chan imgMid 0 1 0) (chan imgMid 0 1 1) (chan imgMid 0 1 2)
        = 128 / 255
    rw [show chan imgMid 0 1 0 = 128 from rfl, show chan imgMid 0 1 1 = 128 from rfl,
      show chan imgMid 0 1 2 = 128 from rfl, perceivedLightness_gray]
    norm_num
  have hcnt : fgCount imgMid optsMid = 1 := by decide
  rw [avgLightness, hacc, hcnt]
  norm_num

lemma imgMid_bandX : edgeBandX imgMid optsMid = 1 := by
  norm_num [edgeBandX, imgMid, optsMid]

lemma imgMid_bandY : edgeBandY imgMid optsMid = 0 := by
  norm_num [edgeBandY, imgMid, optsMid]

lemma imgMid_edgeList : edgeList imgMid optsMid = [(0, 0), (0, 1)] := by
  simp only [edgeList, edgePixelP, inEdgeBandP, imgMid_bandX, imgMid_bandY]
  decide

lemma imgMid_edgeAvg : edgeAvg imgMid optsMid = 383 / 510 := by
  have hacc : edgeLightAccum imgMid optsMid = 383 / 255 := by
    rw [edgeLightAccum, imgMid_edgeList]
    simp only [List.map_cons, List.map_nil, List.sum_cons, List.sum_nil, add_zero]
    show perceivedLightness (chan imgMid 0 0 0) (chan imgMid 0 0 1) (chan imgMid 0 0 2) +
        perceivedLightness (chan imgMid 0 1 0) (chan imgMid 0 1 1) (chan imgMid 0 1 2)
        = 383 / 255
    rw [show chan imgMid 0 0 0 = 255 from rfl, show chan imgMid 0 0 1 = 255 from rfl,
      show chan imgMid 0 0 2 = 255 from rfl, show chan imgMid 0 1 0 = 128 from rfl,
      show chan imgMid 0 1 1 = 128 from rfl, show chan imgMid 0 1 2 = 128 from rfl,
      perceivedLightness_gray, perceivedLightness_gray]
    norm_num
  have hcnt : edgeFgCount imgMid optsMid = 2 := by
    rw [edgeFgCount, imgMid_edgeList]
    rfl
  rw [edgeAvg, hacc, hcnt]
  norm_num

/-- Witness for C2: on the white-plus-gray strip the mean lightness
128/255 is ambiguous, the edge mean 383/510 (which counts the excluded
white pixel) exceeds it, and the result is tone light with
confidence 0.3. -/
theorem suggestBackground_ambiguous_witness :
    0.42 ≤ avgLightness imgMid optsMid ∧ avgLightness imgMid optsMid ≤ 0.58 ∧
    avgLightness imgMid optsMid < edgeAvg imgMid optsMid ∧
    suggestBackground imgMid optsMid =
      ⟨Tone.light, 0.3, avgLightness imgMid optsMid, fgCount imgMid optsMid,
        imgMid.width * imgMid.height⟩ := by
  have h1 : (0.42 : Real) ≤ avgLightness imgMid optsMid := by
    rw [imgMid_avg]
    norm_num
  have h2 : avgLightness imgMid optsMid ≤ 0.58 := by
    rw [imgMid_avg]
    norm_num
  have hlt : avgLightness imgMid optsMid < edgeAvg imgMid optsMid := by
    rw [imgMid_avg, imgMid_edgeAvg]
    norm_num
  have hec : edgeFgCount imgMid optsMid ≠ 0 := by
    rw [edgeFgCount, imgMid_edgeList]
    decide
  exact ⟨h1, h2, hlt,
    (suggestBackground_ambiguous imgMid optsMid (by decide) h1 h2).2.2.1 hec hlt⟩

/-! ### Claim C9 -/

/-- C9: when both band bounds floor(width * edgeSampleRatio) and
floor(height * edgeSampleRatio) are zero the edge band is empty, so an
ambiguous mean lightness in [0.42, 0.58] always falls back to tone dark
with confidence 0.1, however opaque the pixels are. -/
theorem suggestBackground_tiny_ambiguous (image : Image) (o : SuggestionOptions)
    (hbx : edgeBandX image o = 0) (hby : edgeBandY image o = 0)
    (h : fgCount image o ≠ 0)
    (h1 : 0.42 ≤ avgLightness image o) (h2 : avgLightness image o ≤ 0.58) :
    suggestBackground image o =
      ⟨Tone.dark, 0.1, avgLightness image o, fgCount image o, image.width * image.height⟩ := by
  have hedge : edgeList image o = [] := by
    rw [edgeList, List.filter_eq_nil_iff]
    intro p hp
    rw [mem_coords] at hp
    simp only [decide_eq_true_eq]
    intro hep
    have hband := hep.1
    simp only [inEdgeBandP, hbx, hby] at hband
    have hy : p.1 < image.height := hp.1
    have hx : p.2 < image.width := hp.2
    omega
  refine (suggestBackground_ambiguous image o h h1 h2).2.1 ?_
  rw [edgeFgCount, hedge]
  rfl

/-- Concrete 1 x 1 mid-gray opaque bitmap. -/
def imgGray : Image := ⟨1, 1, [128, 128, 128, 255]⟩

lemma imgGray_avg_of (o : SuggestionOptions) (hfg : fgList imgGray o = [(0, 0)]) :
    avgLightness imgGray o = 128 / 255 := by
  have hacc : accumLightness imgGray o = 128 / 255 := by
    rw [accumLightness, hfg]
    simp only [List.map_cons, List.map_nil, List.sum_cons, List.sum_nil, add_zero]
    show perceivedLightness (chan imgGray 0 0 0) (chan imgGray 0 0 1) (chan imgGray 0 0 2)
        = 128 / 255
    rw [show chan imgGray 0 0 0 = 128 from rfl, show chan imgGray 0 0 1 = 128 from rfl,
      show chan imgGray 0 0 2 = 128 from rfl, perceivedLightness_gray]
    norm_num
  have hcnt : fgCount imgGray o = 1 := by
    rw [fgCount, hfg]
    rfl
  rw [avgLightness, hacc, hcnt]
  norm_num

lemma imgGray_avg : avgLightness imgGray defaults = 128 / 255 :=
  imgGray_avg_of defaults (by decide)

/-- Witness for C9: a fully opaque 1 x 1 mid-gray bitmap under the
default edgeSampleRatio 0.4 has empty band bounds and lands on tone dark
with confidence 0.1. -/
theorem suggestBackground_tiny_ambiguous_witness :
    suggestBackground imgGray defaults =
      ⟨Tone.dark, 0.1, avgLightness imgGray defaults, fgCount imgGray defaults,
        imgGray.width * imgGray.height⟩ := by
  have h1 : (0.42 : Real) ≤ avgLightness imgGray defaults := by
    rw [imgGray_avg]
    norm_num
  have h2 : avgLightness imgGray defaults ≤ 0.58 := by
    rw [imgGray_avg]
    norm_num
  exact suggestBackground_tiny_ambiguous imgGray defaults
    (by norm_num [edgeBandX, imgGray, defaults]) (by norm_num [edgeBandY, imgGray, defaults])
    (by decide) h1 h2

/-! ### Claim C5 -/

lemma coords_length (w h : Nat) : (coords w h).length = h * w := by
  rw [coords, List.length_flatMap]
  simp [Function.comp_def, List.map_const, List.sum_replicate, Nat.mul_comm]

lemma fgList_nodup (image : Image) (o : SuggestionOptions) : (fgList image o).Nodup :=
  (coords_nodup _ _).filter _

lemma fgCount_eq_card (image : Image) (o : SuggestionOptions) :
    fgCount image o =
      ((Finset.range image.height ×ˢ Finset.range image.width).filter
        (fun p => o.alphaThreshold ≤ chan image p.1 p.2 3 ∧
          ¬(o.ignorePureWhite = true ∧ chan image p.1 p.2 0 = 255 ∧ chan image p.1 p.2 1 = 255 ∧
            chan image p.1 p.2 2 = 255) ∧
          ¬(o.ignorePureBlack = true ∧ chan image p.1 p.2 0 = 0 ∧ chan image p.1 p.2 1 = 0 ∧
            chan image p.1 p.2 2 = 0))).card := by
  have htf : (fgList image o).toFinset =
      (Finset.range image.height ×ˢ Finset.range image.width).filter
        (fun p => o.alphaThreshold ≤ chan image p.1 p.2 3 ∧
          ¬(o.ignorePureWhite = true ∧ chan image p.1 p.2 0 = 255 ∧ chan image p.1 p.2 1 = 255 ∧
            chan image p.1 p.2 2 = 255) ∧
          ¬(o.ignorePureBlack = true ∧ chan image p.1 p.2 0 = 0 ∧ chan image p.1 p.2 1 = 0 ∧
            chan image p.1 p.2 2 = 0)) := by
    ext p
    simp only [fgList, fgPixelP, List.mem_toFinset, List.mem_filter, Finset.mem_filter,
      Finset.mem_product, Finset.mem_range, mem_coords, decide_eq_true_eq]
  rw [fgCount, ← List.toFinset_card_of_nodup (fgList_nodup image o), htf]

/-- C5: totalSampled is always the full pixel count width * height, and
foregroundSampled is exactly the number of grid positions whose alpha
reaches alphaThreshold and which are not excluded by the exact
pure-white or pure-black matches. -/
theorem suggestBackground_sample_counts (image : Image) (o : SuggestionOptions) :
    (suggestBackground image o).totalSampled = image.width * image.height ∧
    (suggestBackground image o).foregroundSampled =
      ((Finset.range image.height ×ˢ Finset.range image.width).filter
        (fun p => o.alphaThreshold ≤ chan image p.1 p.2 3 ∧
          ¬(o.ignorePureWhite = true ∧ chan image p.1 p.2 0 = 255 ∧ chan image p.1 p.2 1 = 255 ∧
            chan image p.1 p.2 2 = 255) ∧
          ¬(o.ignorePureBlack = true ∧ chan image p.1 p.2 0 = 0 ∧ chan image p.1 p.2 1 = 0 ∧
            chan image p.1 p.2 2 = 0))).card := by
  by_cases hc : fgCount image o = 0
  · rw [suggestBackground_of_fgCount_zero hc]
    exact ⟨rfl, by rw [← fgCount_eq_card, hc]⟩
  · rw [suggestBackground_of_fgCount_pos hc]
    exact ⟨rfl, fgCount_eq_card image o⟩

/-! ### Claim C6 -/

/-- All-pure-white fully opaque bitmap: every byte is 255. -/
def whiteImage (w h : Nat) : Image :=
  ⟨w, h, List.replicate (w * h * 4) 255⟩

/-- All-pure-black fully opaque bitmap: alpha bytes 255, colour bytes 0. -/
def blackImage (w h : Nat) : Image :=
  ⟨w, h, (List.range (w * h * 4)).map (fun i => if i % 4 = 3 then 255 else 0)⟩

lemma pixel_index_lt {w h y x c : Nat} (hy : y < h) (hx : x < w) (hc : c < 4) :
    (y * w + x) * 4 + c < w * h * 4 := by
  have h1 : y * w + x < h * w := by
    calc y * w + x < y * w + w := by omega
      _ = (y + 1) * w := by ring
      _ ≤ h * w := Nat.mul_le_mul_right w hy
  have h2 : w * h = h * w := Nat.mul_comm w h
  omega

lemma chan_whiteImage {w h y x c : Nat} (hy : y < h) (hx : x < w) (hc : c < 4) :
    chan (whiteImage w h) y x c = 255 := by
  show (List.replicate (w * h * 4) 255).getD ((y * w + x) * 4 + c) 0 = 255
  rw [List.getD_eq_getElem?_getD, List.getElem?_replicate, if_pos (pixel_index_lt hy hx hc)]
  rfl

lemma chan_blackImage {w h y x c : Nat} (hy : y < h) (hx : x < w) (hc : c < 4) :
    chan (blackImage w h) y x c = if c = 3 then 255 else 0 := by
  show ((List.range (w * h * 4)).map (fun i => if i % 4 = 3 then 255 else 0)).getD
      ((y * w + x) * 4 + c) 0 = if c = 3 then 255 else 0
  rw [List.getD_eq_getElem?_getD, List.getElem?_map,
    List.getElem?_range (pixel_index_lt hy hx hc)]
  have hmod : ((y * w + x) * 4 + c) % 4 = c := by omega
  simp [hmod]

lemma tone_of_avg_high {image : Image} {o : SuggestionOptions} (h : fgCount image o ≠ 0)
    (havg : 0.58 < avgLightness image o) : (suggestBackground image o).tone = Tone.dark := by
  rw [suggestBackground_of_fgCount_pos h]
  show (decision image o).1 = Tone.dark
  rw [decision, if_pos havg]

lemma tone_of_avg_low {image : Image} {o : SuggestionOptions} (h : fgCount image o ≠ 0)
    (havg : avgLightness image o < 0.42) : (suggestBackground image o).tone = Tone.light := by
  rw [suggestBackground_of_fgCount_pos h]
  show (decision image o).1 = Tone.light
  rw [decision, if_neg (by linarith), if_pos havg]

lemma whiteImage_fgList (w h : Nat) (b2 : Bool) :
    fgList (whiteImage w h) ⟨16, false, b2, 0.4⟩ = coords w h := by
  show (coords w h).filter _ = coords w h
  rw [List.filter_eq_self]
  intro p hp
  rw [mem_coords] at hp
  rw [decide_eq_true_eq]
  refine ⟨?_, ?_, ?_⟩
  · rw [chan_whiteImage hp.1 hp.2 (by norm_num)]
    norm_num
  · rintro ⟨hb, -⟩
    exact absurd hb (by norm_num)
  · rintro ⟨-, h0, -, -⟩
    rw [chan_whiteImage hp.1 hp.2 (by norm_num)] at h0
    exact absurd h0 (by norm_num)

lemma whiteImage_tone_b1_false (w h : Nat) (b2 : Bool) (hw : 0 < w) (hh : 0 < h) :
    (suggestBackground (whiteImage w h) ⟨16, false, b2, 0.4⟩).tone = Tone.dark := by
  have hn : fgCount (whiteImage w h) ⟨16, false, b2, 0.4⟩ = h * w := by
    rw [fgCount, whiteImage_fgList, coords_length]
  have hone : ∀ p ∈ coords w h,
      pixelLightness (whiteImage w h) p = (fun _ => (1 : Real)) p := by
    intro p hp
    rw [mem_coords] at hp
    show pixelLightness (whiteImage w h) p = 1
    rw [pixelLightness, chan_whiteImage hp.1 hp.2 (by norm_num),
      chan_whiteImage hp.1 hp.2 (by norm_num), chan_whiteImage hp.1 hp.2 (by norm_num),
      perceivedLightness_gray]
    norm_num
  have hacc : accumLightness (whiteImage w h) ⟨16, false, b2, 0.4⟩ = ((h * w : Nat) : Real) := by
    rw [accumLightness, whiteImage_fgList, List.map_congr_left hone]
    simp [List.map_const, List.sum_replicate, coords_length]
  have havg : avgLightness (whiteImage w h) ⟨16, false, b2, 0.4⟩ = 1 := by
    rw [avgLightness, hacc, hn]
    exact div_self (Nat.cast_ne_zero.mpr (Nat.mul_pos hh hw).ne')
  refine tone_of_avg_high ?_ ?_
  · rw [hn]
    exact (Nat.mul_pos hh hw).ne'
  · rw [havg]
    norm_num

lemma blackImage_fgList (w h : Nat) (b2 : Bool) :
    fgList (blackImage w h) ⟨16, b2, false, 0.4⟩ = coords w h := by
  show (coords w h).filter _ = coords w h
  rw [List.filter_eq_self]
  intro p hp
  rw [mem_coords] at hp
  rw [decide_eq_true_eq]
  refine ⟨?_, ?_, ?_⟩
  · rw [chan_blackImage hp.1 hp.2 (by norm_num)]
    norm_num
  · rintro ⟨-, h0, -, -⟩
    rw [chan_blackImage hp.1 hp.2 (by norm_num)] at h0
    exact absurd h0 (by norm_num)
  · rintro ⟨hb, -⟩
    exact absurd hb (by norm_num)

lemma blackImage_tone_b1_false (w h : Nat) (b2 : Bool) (hw : 0 < w) (hh : 0 < h) :
    (suggestBackground (blackImage w h) ⟨16, b2, false, 0.4⟩).tone = Tone.light := by
  have hn : fgCount (blackImage w h) ⟨16, b2, false, 0.4⟩ = h * w := by
    rw [fgCount, blackImage_fgList, coords_length]
  have hzero : ∀ p ∈ coords w h,
      pixelLightness (blackImage w h) p = (fun _ => (0 : Real)) p := by
    intro p hp
    rw [mem_coords] at hp
    show pixelLightness (blackImage w h) p = 0
    rw [pixelLightness, chan_blackImage hp.1 hp.2 (by norm_num),
      chan_blackImage hp.1 hp.2 (by norm_num), chan_blackImage hp.1 hp.2 (by norm_num)]
    norm_num [perceivedLightness_gray]
  have hacc : accumLightness (blackImage w h) ⟨16, b2, false, 0.4⟩ = 0 := by
    rw [accumLightness, blackImage_fgList, List.map_congr_left hzero]
    simp [List.map_const, List.sum_replicate]
  have havg : avgLightness (blackImage w h) ⟨16, b2, false, 0.4⟩ = 0 := by
    rw [avgLightness, hacc, zero_div]
  refine tone_of_avg_low ?_ ?_
  · rw [hn]
    exact (Nat.mul_pos hh hw).ne'
  · rw [havg]
    norm_num

lemma whiteImage_tone_b1_true (w h : Nat) (b2 : Bool) :
    (suggestBackground (whiteImage w h) ⟨16, true, b2, 0.4⟩).tone = Tone.dark := by
  have hnil : fgList (whiteImage w h) ⟨16, true, b2, 0.4⟩ = [] := by
    show (coords w h).filter _ = []
    rw [List.filter_eq_nil_iff]
    intro p hp
    rw [mem_coords] at hp
    simp only [decide_eq_true_eq]
    intro hfgp
    exact hfgp.2.1 ⟨rfl, chan_whiteImage hp.1 hp.2 (by norm_num),
      chan_whiteImage hp.1 hp.2 (by norm_num), chan_whiteImage hp.1 hp.2 (by norm_num)⟩
  have hc : fgCount (whiteImage w h) ⟨16, true, b2, 0.4⟩ = 0 := by
    rw [fgCount, hnil]
    rfl
  rw [suggestBackground_of_fgCount_zero hc]

lemma blackImage_tone_b1_true (w h : Nat) (b2 : Bool) :
    (suggestBackground (blackImage w h) ⟨16, b2, true, 0.4⟩).tone = Tone.dark := by
  have hnil : fgList (blackImage w h) ⟨16, b2, true, 0.4⟩ = [] := by
    show (coords w h).filter _ = []
    rw [List.filter_eq_nil_iff]
    intro p hp
    rw [mem_coords] at hp
    simp only [decide_eq_true_eq]
    intro hfgp
    refine hfgp.2.2 ⟨rfl, ?_, ?_, ?_⟩
    · rw [chan_blackImage hp.1 hp.2 (show (0 : Nat) < 4 by norm_num)]
      decide
    · rw [chan_blackImage hp.1 hp.2 (show (1 : Nat) < 4 by norm_num)]
      decide
    · rw [chan_blackImage hp.1 hp.2 (show (2 : Nat) < 4 by norm_num)]
      decide
  have hc : fgCount (blackImage w h) ⟨16, b2, true, 0.4⟩ = 0 := by
    rw [fgCount, hnil]
    rfl
  rw [suggestBackground_of_fgCount_zero hc]

/-- C6 counterexample: with b1 = true, b2 = false on 1 x 1 bitmaps the
all-white call (ignorePureWhite true) and the flag-swapped all-black call
(ignorePureBlack true) both hit the empty-foreground fallback and both
return tone dark, so the mirrored-decision biconditional fails. -/
theorem whiteBlack_symmetry_counterexample :
    ¬(((suggestBackground (whiteImage 1 1) ⟨16, true, false, 0.4⟩).tone = Tone.light) ↔
      ((suggestBackground (blackImage 1 1) ⟨16, false, true, 0.4⟩).tone = Tone.dark)) := by
  rw [whiteImage_tone_b1_true 1 1 false, blackImage_tone_b1_true 1 1 false]
  intro hiff
  exact Tone.noConfusion (hiff.mpr rfl)

/-- C6 amended: on non-empty all-white and all-black opaque bitmaps of
equal dimensions the mirrored tone decision holds exactly when the
white-side flag b1 is false (white goes dark, black goes light, for
either value of b2); when b1 is true both calls lose all foreground to
the exclusions and both return the dark fallback. -/
theorem whiteBlack_tone_amended (w h : Nat) (b2 : Bool) (hw : 0 < w) (hh : 0 < h) :
    ((suggestBackground (whiteImage w h) ⟨16, false, b2, 0.4⟩).tone = Tone.dark ∧
     (suggestBackground (blackImage w h) ⟨16, b2, false, 0.4⟩).tone = Tone.light) ∧
    ((suggestBackground (whiteImage w h) ⟨16, true, b2, 0.4⟩).tone = Tone.dark ∧
     (suggestBackground (blackImage w h) ⟨16, b2, true, 0.4⟩).tone = Tone.dark) :=
  ⟨⟨whiteImage_tone_b1_false w h b2 hw hh, blackImage_tone_b1_false w h b2 hw hh⟩,
   ⟨whiteImage_tone_b1_true w h b2, blackImage_tone_b1_true w h b2⟩⟩

/-- Witness for the amended C6 at the concrete 1 x 1 pair with b2 =
false. -/
theorem whiteBlack_tone_amended_witness :
    ((suggestBackground (whiteImage 1 1) ⟨16, false, false, 0.4⟩).tone = Tone.dark ∧
     (suggestBackground (blackImage 1 1) ⟨16, false, false, 0.4⟩).tone = Tone.light) ∧
    ((suggestBackground (whiteImage 1 1) ⟨16, true, false, 0.4⟩).tone = Tone.dark ∧
     (suggestBackground (blackImage 1 1) ⟨16, false, true, 0.4⟩).tone = Tone.dark) :=
  whiteBlack_tone_amended 1 1 false (by decide) (by decide)

/-! ### Claim C7 -/

/-- C7 counterexample: the 1 x 1 opaque mid-gray bitmap with
edgeSampleRatio 1/2 has empty band bounds floor(1 * 1/2) = 0, so the
edge pass counts no pixel while the foreground pass counts one: the two
samples differ and edgeAvg (0) differs from avg (128/255), refuting the
claim that ratio >= 0.5 makes them coincide. -/
theorem edge_equals_foreground_counterexample :
    (1/2 : Rat) ≤ optsMid.edgeSampleRatio ∧
    edgeList imgGray optsMid ≠ fgList imgGray optsMid ∧
    edgeAvg imgGray optsMid ≠ avgLightness imgGray optsMid := by
  have hbx : edgeBandX imgGray optsMid = 0 := by
    norm_num [edgeBandX, imgGray, optsMid]
  have hby : edgeBandY imgGray optsMid = 0 := by
    norm_num [edgeBandY, imgGray, optsMid]
  have hedge : edgeList imgGray optsMid = [] := by
    simp only [edgeList, edgePixelP, inEdgeBandP, hbx, hby]
    decide
  have hfg : fgList imgGray optsMid = [(0, 0)] := by decide
  refine ⟨by norm_num [optsMid], ?_, ?_⟩
  · rw [hedge, hfg]
    decide
  · have heavg : edgeAvg imgGray optsMid = 0 := by
      rw [edgeAvg, edgeLightAccum, edgeFgCount, hedge]
      simp
    rw [heavg, imgGray_avg_of optsMid hfg]
    norm_num

/-- C7 amended: when the band bounds cover every row or every column
(height <= 2 * floor(height * ratio) or width <= 2 * floor(width *
ratio), which ratio >= 0.5 gives for even dimensions) and both
exact-match exclusions are disabled, the edge pass visits exactly the
pixels of the foreground pass, so the counts, the lightness sums and the
means agree. -/
theorem edge_equals_foreground_amended (image : Image) (o : SuggestionOptions)
    (hcov : (image.height : Int) ≤ 2 * edgeBandY image o ∨
      (image.width : Int) ≤ 2 * edgeBandX image o)
    (hpw : o.ignorePureWhite = false) (hpb : o.ignorePureBlack = false) :
    edgeList image o = fgList image o ∧ edgeFgCount image o = fgCount image o ∧
    edgeLightAccum image o = accumLightness image o ∧
    edgeAvg image o = avgLightness image o := by
  have hlist : edgeList image o = fgList image o := by
    rw [edgeList, fgList]
    apply List.filter_congr
    intro p hp
    rw [mem_coords] at hp
    rw [decide_eq_decide]
    have hy := hp.1
    have hx := hp.2
    constructor
    · rintro ⟨-, ha⟩
      refine ⟨ha, ?_, ?_⟩
      · rw [hpw]
        rintro ⟨hb, -⟩
        exact Bool.false_ne_true hb
      · rw [hpb]
        rintro ⟨hb, -⟩
        exact Bool.false_ne_true hb
    · rintro ⟨ha, -, -⟩
      refine ⟨?_, ha⟩
      rcases hcov with hc | hc
      · left
        omega
      · right
        omega
  have hcnt : edgeFgCount image o = fgCount image o := by
    rw [edgeFgCount, hlist]
    rfl
  have hacc : edgeLightAccum image o = accumLightness image o := by
    rw [edgeLightAccum, hlist]
    rfl
  refine ⟨hlist, hcnt, hacc, ?_⟩
  rw [edgeAvg, hacc, hcnt, avgLightness]

/-- Options with both exclusions disabled and edgeSampleRatio 1, so the
band covers the whole 1 x 1 witness bitmap. -/
def optsFull : SuggestionOptions := ⟨16, false, false, 1⟩

/-- Witness for the amended C7 on the 1 x 1 mid-gray bitmap with ratio 1
and both exclusions off. -/
theorem edge_equals_foreground_amended_witness :
    edgeList imgGray optsFull = fgList imgGray optsFull ∧
    edgeFgCount imgGray optsFull = fgCount imgGray optsFull ∧
    edgeLightAccum imgGray optsFull = accumLightness imgGray optsFull ∧
    edgeAvg imgGray optsFull = avgLightness imgGray optsFull :=
  edge_equals_foreground_amended imgGray optsFull
    (Or.inl (by norm_num [edgeBandY, imgGray, optsFull])) rfl rfl

/-! ### Claim C8 -/

lemma chan_congr {image1 image2 : Image} (hw : image1.width = image2.width)
    (hd : ∀ i, i < 4 * (image1.width * image1.height) →
      image1.data.getD i 0 = image2.data.getD i 0)
    (y x c : Nat) (hy : y < image1.height) (hx : x < image1.width) (hc : c < 4) :
    chan image1 y x c = chan image2 y x c := by
  unfold chan
  rw [← hw]
  apply hd
  have h1 : y * image1.width + x < image1.width * image1.height := by
    calc y * image1.width + x < y * image1.width + image1.width := by omega
      _ = (y + 1) * image1.width := by ring
      _ ≤ image1.height * image1.width := Nat.mul_le_mul_right _ hy
      _ = image1.width * image1.height := Nat.mul_comm _ _
  omega

/-- C8: suggestBackground is a pure function of the bitmap dimensions,
the first 4 * width * height buffer bytes and the options: any two
inputs agreeing on those produce identical Suggestion records (so two
calls on the same input are bit-identical), and the analyzer never reads
outside the buffer, let alone writes it. -/
theorem suggestBackground_deterministic (image1 image2 : Image) (o : SuggestionOptions)
    (hw : image1.width = image2.width) (hh : image1.height = image2.height)
    (hd : ∀ i, i < 4 * (image1.width * image1.height) →
      image1.data.getD i 0 = image2.data.getD i 0) :
    suggestBackground image1 o = suggestBackground image2 o := by
  have hpl : ∀ p : Nat × Nat, p.1 < image1.height → p.2 < image1.width →
      pixelLightness image1 p = pixelLightness image2 p := by
    intro p hy hx
    rw [pixelLightness, pixelLightness,
      chan_congr hw hd p.1 p.2 0 hy hx (by norm_num),
      chan_congr hw hd p.1 p.2 1 hy hx (by norm_num),
      chan_congr hw hd p.1 p.2 2 hy hx (by norm_num)]
  have hfg : fgList image1 o = fgList image2 o := by
    rw [fgList, fgList, ← hw, ← hh]
    apply List.filter_congr
    intro p hp
    rw [mem_coords] at hp
    rw [decide_eq_decide]
    unfold fgPixelP
    rw [chan_congr hw hd p.1 p.2 0 hp.1 hp.2 (by norm_num),
      chan_congr hw hd p.1 p.2 1 hp.1 hp.2 (by norm_num),
      chan_congr hw hd p.1 p.2 2 hp.1 hp.2 (by norm_num),
      chan_congr hw hd p.1 p.2 3 hp.1 hp.2 (by norm_num)]
  have hedge : edgeList image1 o = edgeList image2 o := by
    rw [edgeList, edgeList, ← hw, ← hh]
    apply List.filter_congr
    intro p hp
    rw [mem_coords] at hp
    rw [decide_eq_decide]
    unfold edgePixelP inEdgeBandP edgeBandX edgeBandY
    rw [hw, hh, chan_congr hw hd p.1 p.2 3 hp.1 hp.2 (by norm_num)]
  have hcnt : fgCount image1 o = fgCount image2 o := by
    rw [fgCount, fgCount, hfg]
  have hacc : accumLightness image1 o = accumLightness image2 o := by
    rw [accumLightness, accumLightness, ← hfg]
    refine congrArg List.sum (List.map_congr_left ?_)
    intro p hp
    have hpc := (List.mem_filter.1 hp).1
    rw [mem_coords] at hpc
    exact hpl p hpc.1 hpc.2
  have havg : avgLightness image1 o = avgLightness image2 o := by
    rw [avgLightness, avgLightness, hacc, hcnt]
  have hecnt : edgeFgCount image1 o = edgeFgCount image2 o := by
    rw [edgeFgCount, edgeFgCount, hedge]
  have heacc : edgeLightAccum image1 o = edgeLightAccum image2 o := by
    rw [edgeLightAccum, edgeLightAccum, ← hedge]
    refine congrArg List.sum (List.map_congr_left ?_)
    intro p hp
    have hpc := (List.mem_filter.1 hp).1
    rw [mem_coords] at hpc
    exact hpl p hpc.1 hpc.2
  have heavg : edgeAvg image1 o = edgeAvg image2 o := by
    rw [edgeAvg, edgeAvg, heacc, hecnt]
  have hdec : decision image1 o = decision image2 o := by
    unfold decision
    rw [havg, heavg, hecnt]
  unfold suggestBackground
  rw [hcnt, hdec, havg, hw, hh]

/-- Concrete 1 x 1 bitmap with an exactly-fitting buffer. -/
def imgDet1 : Image := ⟨1, 1, [10, 20, 30, 255]⟩

/-- The same pixel content with one spare trailing byte the analyzer must
ignore. -/
def imgDet2 : Image := ⟨1, 1, [10, 20, 30, 255, 99]⟩

/-- Witness for C8: the analyzer returns identical records on two buffers
agreeing on the 4 in-range bytes. -/
theorem suggestBackground_deterministic_witness :
    suggestBackground imgDet1 defaults = suggestBackground imgDet2 defaults := by
  refine suggestBackground_deterministic imgDet1 imgDet2 defaults rfl rfl ?_
  intro i hi
  have hi4 : i < 4 := hi
  interval_cases i <;> rfl

end BgSuggest
